import Mathlib

/-!
Shallow embedding of the flyvo-backend flight-search core (`src/main.py`)
and verification of the specification's claims about it.

Modelling conventions:
* Python `date` values are modelled as integers counting days
  (`timedelta(days = n)` becomes `+ n`, `(d2 - d1).days` becomes `d2 - d1`).
* Python `datetime` timestamps are modelled as integers counting seconds;
  a timestamp field of a raw provider offer is either absent (`None`),
  present but unparseable, or a parsed instant.
* Python floats that carry money amounts are modelled as rationals.
* Python `list.sort(key = price)` is a stable ascending sort; it is
  modelled with `List.insertionSort`, which is stable.
* Python dicts preserve insertion order; the airline grouping dict of
  `balance_airlines` is modelled as an association list built in
  first-occurrence order.
* Network calls are modelled by an oracle `provider : pair → response`;
  the static airline directory (`airlines.py`, not part of the sources)
  is a parameter of the mapper, never inspected by any claim.
* A Python function that may raise is modelled with `Except Unit`.
-/

/-- `SearchParams` (src/main.py lines 17-35): the validated request body. -/
structure SearchParams where
  origin : String
  destination : String
  earliestDeparture : Int
  latestDeparture : Int
  minStayDays : Int
  maxStayDays : Int
  maxPrice : Option Rat := none
  cabin : String := "BUSINESS"
  passengers : Nat := 1
  stopsFilter : Option (List Int) := none
  maxOffersPerPair : Option Int := none
  maxOffersTotal : Option Int := none
  maxDatePairs : Option Int := none
deriving Repr

/-- `FlightOption` (src/main.py lines 38-59): the canonical output record.
Dates are day numbers (see module conventions); `price` is a rational. -/
structure FlightOption where
  id : String
  airline : String
  airlineCode : Option String := none
  price : Rat
  currency : String
  departureDate : Int
  returnDate : Int
  stops : Int
  durationMinutes : Int
  totalDurationMinutes : Option Int := none
  duration : Option String := none
  origin : Option String := none
  destination : Option String := none
  originAirport : Option String := none
  destinationAirport : Option String := none
  bookingUrl : Option String := none
  url : Option String := none
deriving Repr, DecidableEq

/-- The list of stay lengths `list(range(lo, hi + 1))`. -/
def stayRange (lo hi : Int) : List Int :=
  (List.range (hi + 1 - lo).toNat).map (fun i : Nat => lo + (i : Int))

/-- The departure days the outer `while` loop of `generate_date_pairs`
visits: every day from `earliest` to `latest` inclusive. -/
def dayRange (earliest latest : Int) : List Int :=
  (List.range (latest + 1 - earliest).toNat).map (fun i : Nat => earliest + (i : Int))

/-- Inner `for stay in stays` loop of `generate_date_pairs`
(src/main.py lines 133-138): append `(current, current + stay)` whenever
the return date does not exceed `latest`, breaking as soon as `max_pairs`
pairs have been accumulated. -/
def addStays (latest : Int) (maxPairs : Nat) (current : Int) :
    List Int → List (Int × Int) → List (Int × Int)
  | [], pairs => pairs
  | stay :: rest, pairs =>
    let ret := current + stay
    if ret ≤ latest then
      let pairs2 := pairs ++ [(current, ret)]
      if maxPairs ≤ pairs2.length then pairs2
      else addStays latest maxPairs current rest pairs2
    else addStays latest maxPairs current rest pairs

/-- Outer `while current <= latest and len(pairs) < max_pairs` loop of
`generate_date_pairs` (src/main.py lines 132-139), driven by the explicit
day list. -/
def genDays (latest : Int) (stays : List Int) (maxPairs : Nat) :
    List Int → List (Int × Int) → List (Int × Int)
  | [], pairs => pairs
  | d :: ds, pairs =>
    if pairs.length < maxPairs then
      genDays latest stays maxPairs ds (addStays latest maxPairs d stays pairs)
    else pairs

/-- `generate_date_pairs` (src/main.py lines 119-141). -/
def generate_date_pairs (params : SearchParams) (max_pairs : Nat := 60) :
    List (Int × Int) :=
  let min_stay := max 1 params.minStayDays
  let max_stay := max min_stay params.maxStayDays
  let stays := stayRange min_stay max_stay
  genDays params.latestDeparture stays max_pairs
    (dayRange params.earliestDeparture params.latestDeparture) []

/-! ### Lemmas about the date-pair generator -/

theorem mem_stayRange {lo hi stay : Int} (h : stay ∈ stayRange lo hi) :
    lo ≤ stay ∧ stay ≤ hi := by
  simp only [stayRange, List.mem_map, List.mem_range] at h
  obtain ⟨i, hi', rfl⟩ := h
  omega

theorem mem_dayRange {a b d : Int} (h : d ∈ dayRange a b) :
    a ≤ d ∧ d ≤ b := by
  simp only [dayRange, List.mem_map, List.mem_range] at h
  obtain ⟨i, hi', rfl⟩ := h
  omega

theorem addStays_mem {latest : Int} {mp : Nat} {d : Int} :
    ∀ (stays : List Int) (pairs : List (Int × Int)) (p : Int × Int),
      p ∈ addStays latest mp d stays pairs →
      p ∈ pairs ∨ ∃ stay ∈ stays, p = (d, d + stay) ∧ d + stay ≤ latest := by
  intro stays
  induction stays with
  | nil => intro pairs p hp; exact Or.inl hp
  | cons stay rest ih =>
    intro pairs p hp
    simp only [addStays] at hp
    by_cases hret : d + stay ≤ latest
    · simp only [if_pos hret] at hp
      by_cases hlen : mp ≤ (pairs ++ [(d, d + stay)]).length
      · simp only [if_pos hlen] at hp
        rcases List.mem_append.mp hp with h | h
        · exact Or.inl h
        · refine Or.inr ⟨stay, List.mem_cons_self _ _, ?_, hret⟩
          simpa using h
      · simp only [if_neg hlen] at hp
        rcases ih _ _ hp with h | ⟨s, hs, rfl, hsle⟩
        · rcases List.mem_append.mp h with h' | h'
          · exact Or.inl h'
          · refine Or.inr ⟨stay, List.mem_cons_self _ _, ?_, hret⟩
            simpa using h'
        · exact Or.inr ⟨s, List.mem_cons_of_mem _ hs, rfl, hsle⟩
    · simp only [if_neg hret] at hp
      rcases ih _ _ hp with h | ⟨s, hs, rfl, hsle⟩
      · exact Or.inl h
      · exact Or.inr ⟨s, List.mem_cons_of_mem _ hs, rfl, hsle⟩

theorem addStays_len {latest : Int} {mp : Nat} {d : Int} :
    ∀ (stays : List Int) (pairs : List (Int × Int)),
      pairs.length < mp → (addStays latest mp d stays pairs).length ≤ mp := by
  intro stays
  induction stays with
  | nil => intro pairs h; exact Nat.le_of_lt h
  | cons stay rest ih =>
    intro pairs h
    simp only [addStays]
    by_cases hret : d + stay ≤ latest
    · simp only [if_pos hret]
      by_cases hlen : mp ≤ (pairs ++ [(d, d + stay)]).length
      · simp only [if_pos hlen]
        simp only [List.length_append, List.length_cons, List.length_nil]
        omega
      · simp only [if_neg hlen]
        exact ih _ (Nat.lt_of_not_le hlen)
    · simp only [if_neg hret]
      exact ih _ h

theorem genDays_mem {latest : Int} {stays : List Int} {mp : Nat} :
    ∀ (ds : List Int) (pairs : List (Int × Int)) (p : Int × Int),
      p ∈ genDays latest stays mp ds pairs →
      p ∈ pairs ∨ ∃ d ∈ ds, ∃ stay ∈ stays, p = (d, d + stay) ∧ d + stay ≤ latest := by
  intro ds
  induction ds with
  | nil => intro pairs p hp; exact Or.inl hp
  | cons d rest ih =>
    intro pairs p hp
    simp only [genDays] at hp
    by_cases hlen : pairs.length < mp
    · simp only [if_pos hlen] at hp
      rcases ih _ _ hp with h | ⟨d', hd', s, hs, rfl, hsle⟩
      · rcases addStays_mem _ _ _ h with h' | ⟨s, hs, rfl, hsle⟩
        · exact Or.inl h'
        · exact Or.inr ⟨d, List.mem_cons_self _ _, s, hs, rfl, hsle⟩
      · exact Or.inr ⟨d', List.mem_cons_of_mem _ hd', s, hs, rfl, hsle⟩
    · simp only [if_neg hlen] at hp
      exact Or.inl hp

theorem genDays_len {latest : Int} {stays : List Int} {mp : Nat} :
    ∀ (ds : List Int) (pairs : List (Int × Int)),
      pairs.length ≤ mp → (genDays latest stays mp ds pairs).length ≤ mp := by
  intro ds
  induction ds with
  | nil => intro pairs h; exact h
  | cons d rest ih =>
    intro pairs h
    simp only [genDays]
    by_cases hlen : pairs.length < mp
    · simp only [if_pos hlen]
      exact ih _ (addStays_len _ _ hlen)
    · simp only [if_neg hlen]
      exact h

theorem genDays_stop {latest : Int} {stays : List Int} {mp : Nat}
    (ds : List Int) (pairs : List (Int × Int))
    (h : ¬ pairs.length < mp) :
    genDays latest stays mp ds pairs = pairs := by
  cases ds with
  | nil => rfl
  | cons d rest => simp only [genDays, if_neg h]

theorem dayRange_empty {a b : Int} (h : b < a) : dayRange a b = [] := by
  have : (b + 1 - a).toNat = 0 := by omega
  simp [dayRange, this]

/-- C4 (amended): for every window with `earliest ≤ latest` and
`1 ≤ minStay ≤ maxStay`, every emitted pair satisfies
`minStay ≤ return − departure ≤ maxStay`, `departure ≥ earliest` and
`return ≤ latest`; for every input the generator emits at most `maxPairs`
pairs, with `maxPairs = 0` or an inverted window it emits none, and every
emitted pair lies inside the requested window with a stay between the
normalized bounds `max 1 minStay` and `max (max 1 minStay) maxStay`. -/
theorem generate_date_pairs_cap_and_bounds (params : SearchParams) (maxPairs : Nat) :
    (generate_date_pairs params maxPairs).length ≤ maxPairs ∧
    (maxPairs = 0 → generate_date_pairs params maxPairs = []) ∧
    (params.latestDeparture < params.earliestDeparture →
      generate_date_pairs params maxPairs = []) ∧
    (∀ p ∈ generate_date_pairs params maxPairs,
      params.earliestDeparture ≤ p.1 ∧ p.2 ≤ params.latestDeparture ∧
      max 1 params.minStayDays ≤ p.2 - p.1 ∧
      p.2 - p.1 ≤ max (max 1 params.minStayDays) params.maxStayDays) ∧
    (1 ≤ params.minStayDays → params.minStayDays ≤ params.maxStayDays →
      ∀ p ∈ generate_date_pairs params maxPairs,
        params.minStayDays ≤ p.2 - p.1 ∧ p.2 - p.1 ≤ params.maxStayDays) := by
  have hmem : ∀ p ∈ generate_date_pairs params maxPairs,
      params.earliestDeparture ≤ p.1 ∧ p.2 ≤ params.latestDeparture ∧
      max 1 params.minStayDays ≤ p.2 - p.1 ∧
      p.2 - p.1 ≤ max (max 1 params.minStayDays) params.maxStayDays := by
    intro p hp
    rcases genDays_mem _ _ _ hp with h | ⟨d, hd, s, hs, rfl, hsle⟩
    · simp at h
    · obtain ⟨hd1, _hd2⟩ := mem_dayRange hd
      obtain ⟨hs1, hs2⟩ := mem_stayRange hs
      have h3 : max 1 params.minStayDays ≤ d + s - d := by omega
      have h4 : d + s - d ≤ max (max 1 params.minStayDays) params.maxStayDays := by
        omega
      exact ⟨hd1, hsle, h3, h4⟩
  refine ⟨?_, ?_, ?_, hmem, ?_⟩
  · exact genDays_len _ _ (Nat.zero_le _)
  · intro h
    subst h
    exact genDays_stop _ _ (by simp)
  · intro h
    unfold generate_date_pairs
    rw [dayRange_empty h]
    rfl
  · intro h1 h2 p hp
    obtain ⟨_, _, hlo, hhi⟩ := hmem p hp
    have h5 : params.minStayDays ≤ p.2 - p.1 := by omega
    have h6 : p.2 - p.1 ≤ params.maxStayDays := by omega
    exact ⟨h5, h6⟩

/-- Concrete request exhibiting the normalization of a zero stay length:
`minStayDays = 0 ≤ maxStayDays = 0` and a three-day window. -/
def stayZeroParams : SearchParams :=
  { origin := "LHR", destination := "TLV", earliestDeparture := 0,
    latestDeparture := 2, minStayDays := 0, maxStayDays := 0 }

/-- C4 (counterexample to the claim as stated): the window `0 ≤ 2` with
`minStay = maxStay = 0` is valid in the claim's sense, yet the generator
emits the pair `(0, 1)` whose stay `1` exceeds `maxStayDays = 0`, because
the code first normalizes the minimum stay to `max(1, minStayDays)`. -/
theorem generate_date_pairs_stay_zero_cex :
    stayZeroParams.earliestDeparture ≤ stayZeroParams.latestDeparture ∧
    stayZeroParams.minStayDays ≤ stayZeroParams.maxStayDays ∧
    ((0 : Int), (1 : Int)) ∈ generate_date_pairs stayZeroParams 60 ∧
    ¬ ((1 : Int) - 0 ≤ stayZeroParams.maxStayDays) := by
  refine ⟨by decide, by decide, ?_, by decide⟩
  decide

/-- Witness for `generate_date_pairs_cap_and_bounds` at a concrete input
with `1 ≤ minStay ≤ maxStay`. -/
theorem generate_date_pairs_cap_and_bounds_witness :
    (1 : Int) ≤ (2 : Int) ∧
    ∀ p ∈ generate_date_pairs
        { origin := "LHR", destination := "TLV", earliestDeparture := 1,
          latestDeparture := 3, minStayDays := 2, maxStayDays := 2 } 60,
      (2 : Int) ≤ p.2 - p.1 ∧ p.2 - p.1 ≤ (2 : Int) :=
  ⟨by decide,
   (generate_date_pairs_cap_and_bounds
      { origin := "LHR", destination := "TLV", earliestDeparture := 1,
        latestDeparture := 3, minStayDays := 2, maxStayDays := 2 } 60).2.2.2.2
     (by decide) (by decide)⟩

/-! ### Raw provider offers and the offer mapper -/

/-- A timestamp field of a raw provider offer: absent (`None` in the JSON,
so `.replace` raises `AttributeError`), present but unparseable
(`datetime.fromisoformat` raises `ValueError`), or parsed to an instant
measured in seconds. -/
inductive TsField where
  | missing
  | malformed
  | ts (t : Int)
deriving Repr, DecidableEq

/-- The `total_amount` field of a raw offer: absent (`.get` defaults to 0),
a parseable decimal, or a value on which `float(...)` raises. -/
inductive PriceField where
  | missing
  | num (q : Rat)
  | malformed
deriving Repr, DecidableEq

/-- One segment of a raw offer slice, with the fields
`map_duffel_offer_to_option` reads (src/main.py lines 241-258). -/
structure RawSegment where
  origin_iata : Option String := none
  origin_name : Option String := none
  dest_iata : Option String := none
  dest_name : Option String := none
  departing_at : TsField := TsField.missing
  arriving_at : TsField := TsField.missing
deriving Repr, DecidableEq

/-- One slice of a raw offer. -/
structure RawSlice where
  segments : List RawSegment := []
deriving Repr, DecidableEq

/-- A raw provider offer, with the fields the mapper reads
(src/main.py lines 219-254). `none` models an absent JSON key. -/
structure RawOffer where
  id : Option String := none
  total_amount : PriceField := PriceField.missing
  total_currency : Option String := none
  owner_iata : Option String := none
  owner_name : Option String := none
  slices : List RawSlice := []
deriving Repr, DecidableEq

/-- The static airline directory imported from `airlines.py` (that module
is not among the sources, so the directory is kept abstract: a pair of
partial maps from airline code to display name and booking URL). -/
structure AirlineDirectory where
  names : String → Option String
  bookingUrls : String → Option String

/-- `build_iso_duration` (src/main.py lines 195-207). For positive input
Python `//` and `%` agree with `Int.fdiv` and `Int.emod`. -/
def build_iso_duration (minutes : Int) : String :=
  if minutes ≤ 0 then "PT0M"
  else
    let hours := minutes.fdiv 60
    let mins := minutes.emod 60
    if hours ≠ 0 ∧ mins ≠ 0 then
      "PT" ++ toString hours ++ "H" ++ toString mins ++ "M"
    else if hours ≠ 0 then "PT" ++ toString hours ++ "H"
    else "PT" ++ toString mins ++ "M"

/-- The `try` block of `map_duffel_offer_to_option`
(src/main.py lines 253-261): parse the departure timestamp of the first
outbound segment and the arrival timestamp of the last one; on success the
duration is `(arr - dep).total_seconds() // 60` (floor division, modelled
by `Int.fdiv` on seconds), on any parsing failure it defaults to 0.
An empty segment list leaves the duration at its initial 0. -/
def outboundDuration (segments : List RawSegment) : Int :=
  match segments.head?, segments.getLast? with
  | some first, some last =>
    match first.departing_at, last.arriving_at with
    | TsField.ts t1, TsField.ts t2 => (t2 - t1).fdiv 60
    | _, _ => 0
  | _, _ => 0

/-- `slices = offer.get("slices", []) or []` followed by
`outbound_segments = slices[0].get("segments", []) or []` when `slices`
is non-empty (src/main.py lines 227-230). -/
def outboundSegmentsOf (offer : RawOffer) : List RawSegment :=
  match offer.slices with
  | [] => []
  | sl :: _ => sl.segments

/-- `map_duffel_offer_to_option` (src/main.py lines 210-283).
`float(offer.get("total_amount", 0))` sits outside every `try` block, so a
malformed amount raises and the mapping aborts (`Except.error`); a missing
amount defaults to 0. All timestamp parsing failures are caught and produce
duration 0. -/
def map_duffel_offer_to_option (dir : AirlineDirectory) (offer : RawOffer)
    (dep ret : Int) : Except Unit FlightOption :=
  match offer.total_amount with
  | PriceField.malformed => Except.error ()
  | pf =>
    let price : Rat := match pf with | PriceField.num q => q | _ => 0
    let currency := offer.total_currency.getD "GBP"
    let airline_code := offer.owner_iata
    let fallback_name := offer.owner_name.getD
      (match airline_code with
       | some c => if c = "" then "Airline" else c
       | none => "Airline")
    let airline_name :=
      match airline_code with
      | some c => (dir.names c).getD fallback_name
      | none => fallback_name
    let booking_url :=
      match airline_code with
      | some c => dir.bookingUrls c
      | none => none
    let outbound_segments := outboundSegmentsOf offer
    let stops_outbound : Int := max 0 ((outbound_segments.length : Int) - 1)
    let duration_minutes := outboundDuration outbound_segments
    Except.ok
      { id := offer.id.getD ""
        airline := airline_name
        airlineCode :=
          match airline_code with
          | some c => if c = "" then none else some c
          | none => none
        price := price
        currency := currency
        departureDate := dep
        returnDate := ret
        stops := stops_outbound
        durationMinutes := duration_minutes
        totalDurationMinutes := some duration_minutes
        duration := some (build_iso_duration duration_minutes)
        origin := outbound_segments.head?.bind (fun s => s.origin_iata)
        destination := outbound_segments.getLast?.bind (fun s => s.dest_iata)
        originAirport := outbound_segments.head?.bind (fun s => s.origin_name)
        destinationAirport := outbound_segments.getLast?.bind (fun s => s.dest_name)
        bookingUrl := booking_url
        url := booking_url }

/-- An airline directory with no entries, used for concrete evaluations. -/
def emptyDirectory : AirlineDirectory := ⟨fun _ => none, fun _ => none⟩

theorem build_iso_duration_nonpos {m : Int} (h : m ≤ 0) :
    build_iso_duration m = "PT0M" := by
  simp [build_iso_duration, h]

theorem outboundDuration_dep_malformed (s0 : RawSegment) (srest : List RawSegment)
    (h : s0.departing_at = TsField.malformed) :
    outboundDuration (s0 :: srest) = 0 := by
  cases hl : (s0 :: srest).getLast? with
  | none => simp [outboundDuration, hl]
  | some last =>
    cases ha : last.arriving_at <;> simp [outboundDuration, hl, h, ha]

theorem outboundDuration_parsed (s0 slast : RawSegment) (srest : List RawSegment)
    (t1 t2 : Int) (hlast : (s0 :: srest).getLast? = some slast)
    (hdep : s0.departing_at = TsField.ts t1)
    (harr : slast.arriving_at = TsField.ts t2) :
    outboundDuration (s0 :: srest) = (t2 - t1).fdiv 60 := by
  simp only [outboundDuration, List.head?_cons, hlast, hdep, harr]

theorem map_ok_fields (dir : AirlineDirectory) (offer : RawOffer) (dep ret : Int)
    (h : offer.total_amount ≠ PriceField.malformed) :
    ∃ o, map_duffel_offer_to_option dir offer dep ret = Except.ok o ∧
      o.durationMinutes = outboundDuration (outboundSegmentsOf offer) ∧
      o.totalDurationMinutes = some o.durationMinutes ∧
      o.duration = some (build_iso_duration o.durationMinutes) ∧
      o.price = (match offer.total_amount with
                 | PriceField.num q => q
                 | _ => 0) := by
  obtain ⟨oid, pa, cur, oi, onm, sl⟩ := offer
  cases pa with
  | malformed => exact absurd rfl h
  | missing => exact ⟨_, rfl, rfl, rfl, rfl, rfl⟩
  | num q => exact ⟨_, rfl, rfl, rfl, rfl, rfl⟩

/-- C3 (amended): timestamp parsing failures are recovered by defaulting
the duration to 0 and a missing price amount defaults to 0, but a raw
offer whose total price amount fails to parse as a decimal aborts the
mapping: `float(offer.get("total_amount", 0))` sits outside every `try`
block, so the mapper raises instead of returning a FlightOption. -/
theorem map_offer_malformed_price_aborts (dir : AirlineDirectory)
    (offer : RawOffer) (dep ret : Int) :
    (offer.total_amount = PriceField.malformed →
      map_duffel_offer_to_option dir offer dep ret = Except.error ()) ∧
    (offer.total_amount ≠ PriceField.malformed →
      ∃ o, map_duffel_offer_to_option dir offer dep ret = Except.ok o) ∧
    (offer.total_amount = PriceField.missing →
      ∃ o, map_duffel_offer_to_option dir offer dep ret = Except.ok o ∧
        o.price = 0) ∧
    (∀ sl0 slrest s0 srest,
      offer.total_amount ≠ PriceField.malformed →
      offer.slices = sl0 :: slrest → sl0.segments = s0 :: srest →
      s0.departing_at = TsField.malformed →
      ∃ o, map_duffel_offer_to_option dir offer dep ret = Except.ok o ∧
        o.durationMinutes = 0) := by
  refine ⟨?_, ?_, ?_, ?_⟩
  · intro h
    obtain ⟨oid, pa, cur, oi, onm, sl⟩ := offer
    cases pa with
    | malformed => rfl
    | missing => exact absurd h (by simp)
    | num q => exact absurd h (by simp)
  · intro h
    obtain ⟨o, h1, _⟩ := map_ok_fields dir offer dep ret h
    exact ⟨o, h1⟩
  · intro h
    obtain ⟨o, h1, _, _, _, h5⟩ :=
      map_ok_fields dir offer dep ret (by rw [h]; simp)
    refine ⟨o, h1, ?_⟩
    rw [h] at h5
    simpa using h5
  · intro sl0 slrest s0 srest hne hsl hseg hdep
    obtain ⟨o, h1, hd, _, _, _⟩ := map_ok_fields dir offer dep ret hne
    refine ⟨o, h1, ?_⟩
    have hsegs : outboundSegmentsOf offer = s0 :: srest := by
      simp [outboundSegmentsOf, hsl, hseg]
    rw [hd, hsegs]
    exact outboundDuration_dep_malformed s0 srest hdep

/-- A raw offer whose total amount is present but unparseable. -/
def malformedPriceOffer : RawOffer := { total_amount := PriceField.malformed }

/-- C3 (counterexample to the claim as stated): mapping an offer whose
total price amount fails to parse aborts with an error instead of
returning a FlightOption. -/
theorem map_offer_malformed_price_cex :
    map_duffel_offer_to_option emptyDirectory malformedPriceOffer 0 2 =
      Except.error () := rfl

/-- A segment whose departure timestamp is unparseable. -/
def tsMalformedSeg : RawSegment := { departing_at := TsField.malformed }

/-- A raw offer with a parseable price and an unparseable departure
timestamp. -/
def tsMalformedOffer : RawOffer :=
  { total_amount := PriceField.num 450,
    slices := [{ segments := [tsMalformedSeg] }] }

/-- Witness for `map_offer_malformed_price_aborts`: a concrete offer with
an unparseable timestamp still maps, with duration defaulted to 0. -/
theorem map_offer_malformed_price_aborts_witness :
    tsMalformedOffer.total_amount ≠ PriceField.malformed ∧
    ∃ o, map_duffel_offer_to_option emptyDirectory tsMalformedOffer 0 2 =
        Except.ok o ∧ o.durationMinutes = 0 :=
  ⟨by decide,
   (map_offer_malformed_price_aborts emptyDirectory tsMalformedOffer 0 2).2.2.2
     { segments := [tsMalformedSeg] } [] tsMalformedSeg []
     (by decide) rfl rfl rfl⟩

/-- C10: a well-formed outbound itinerary whose last arrival timestamp is
earlier than its first departure timestamp maps to a FlightOption whose
`durationMinutes` (and `totalDurationMinutes`) are negative while the ISO
duration string is floored to `"PT0M"`: only the string form is floored. -/
theorem map_offer_negative_duration (dir : AirlineDirectory) (offer : RawOffer)
    (dep ret : Int) (sl0 : RawSlice) (slrest : List RawSlice)
    (s0 slast : RawSegment) (srest : List RawSegment) (t1 t2 : Int)
    (hsl : offer.slices = sl0 :: slrest)
    (hseg : sl0.segments = s0 :: srest)
    (hlast : (s0 :: srest).getLast? = some slast)
    (hdep : s0.departing_at = TsField.ts t1)
    (harr : slast.arriving_at = TsField.ts t2)
    (hlt : t2 < t1)
    (hprice : offer.total_amount ≠ PriceField.malformed) :
    ∃ o, map_duffel_offer_to_option dir offer dep ret = Except.ok o ∧
      o.durationMinutes < 0 ∧
      o.totalDurationMinutes = some o.durationMinutes ∧
      o.duration = some "PT0M" := by
  obtain ⟨o, hm, hd, ht, hdur, _⟩ := map_ok_fields dir offer dep ret hprice
  have hsegs : outboundSegmentsOf offer = s0 :: srest := by
    simp [outboundSegmentsOf, hsl, hseg]
  have hval : o.durationMinutes = (t2 - t1).fdiv 60 := by
    rw [hd, hsegs, outboundDuration_parsed s0 slast srest t1 t2 hlast hdep harr]
  have hneg : o.durationMinutes < 0 := by
    rw [hval, Int.fdiv_eq_ediv _ (by norm_num)]
    exact Int.ediv_neg' (by omega) (by norm_num)
  refine ⟨o, hm, hneg, ht, ?_⟩
  rw [hdur, build_iso_duration_nonpos (le_of_lt hneg)]

/-- A segment arriving (about two hours) before it departs. -/
def negDurSeg : RawSegment :=
  { departing_at := TsField.ts 0, arriving_at := TsField.ts (-7300) }

/-- A raw offer whose single outbound segment arrives before it departs. -/
def negDurOffer : RawOffer :=
  { total_amount := PriceField.num 450,
    slices := [{ segments := [negDurSeg] }] }

/-- Witness for `map_offer_negative_duration` at a concrete offer. -/
theorem map_offer_negative_duration_witness :
    ((-7300 : Int) < 0 ∧
     negDurOffer.total_amount ≠ PriceField.malformed) ∧
    ∃ o, map_duffel_offer_to_option emptyDirectory negDurOffer 0 2 =
        Except.ok o ∧
      o.durationMinutes < 0 ∧
      o.totalDurationMinutes = some o.durationMinutes ∧
      o.duration = some "PT0M" :=
  ⟨⟨by decide, by decide⟩,
   map_offer_negative_duration emptyDirectory negDurOffer 0 2
     { segments := [negDurSeg] } [] negDurSeg negDurSeg [] 0 (-7300)
     rfl rfl rfl rfl rfl (by decide) (by decide)⟩

/-! ### Sorting by price, the filter engine -/

/-- The ordering used by every `list.sort(key=lambda x: x.price)` call. -/
def priceLe (a b : FlightOption) : Prop := a.price ≤ b.price

instance : DecidableRel priceLe := fun a b =>
  inferInstanceAs (Decidable (a.price ≤ b.price))

instance : IsTotal FlightOption priceLe := ⟨fun a b => le_total a.price b.price⟩

instance : IsTrans FlightOption priceLe := ⟨fun _ _ _ => le_trans⟩

/-- Python's `list.sort` is a stable ascending sort; `insertionSort` is
stable for the reflexive total order `priceLe`. -/
def sortByPrice (l : List FlightOption) : List FlightOption :=
  List.insertionSort priceLe l

theorem mem_sortByPrice {o : FlightOption} {l : List FlightOption} :
    o ∈ sortByPrice l ↔ o ∈ l := List.mem_insertionSort priceLe

theorem sorted_sortByPrice (l : List FlightOption) :
    List.Sorted priceLe (sortByPrice l) := List.sorted_insertionSort priceLe l

theorem perm_sortByPrice (l : List FlightOption) :
    (sortByPrice l).Perm l := List.perm_insertionSort priceLe l

/-- `apply_filters` (src/main.py lines 286-303): optional price ceiling,
optional stops allow-list with the value 3 meaning "3 or more", then an
ascending stable sort by price. `if params.maxPrice is not None and
params.maxPrice > 0` and `if params.stopsFilter` (None and the empty list
are both falsy) are modelled by the corresponding matches. -/
def apply_filters (options : List FlightOption) (params : SearchParams) :
    List FlightOption :=
  let filtered := options
  let filtered :=
    match params.maxPrice with
    | some mp => if 0 < mp then filtered.filter (fun o => o.price ≤ mp) else filtered
    | none => filtered
  let filtered :=
    match params.stopsFilter with
    | none => filtered
    | some sf =>
      if sf = [] then filtered
      else if 3 ∈ sf then
        filtered.filter (fun o => o.stops ∈ sf ∨ 3 ≤ o.stops)
      else filtered.filter (fun o => o.stops ∈ sf)
  sortByPrice filtered

/-- C5: with `stopsFilter = [3]` and no price ceiling, the filter engine
keeps exactly the options with 3 or more stops: the value 3 in the
allow-list is a sentinel for "3 or more stops". -/
theorem apply_filters_stops_three_sentinel (options : List FlightOption)
    (params : SearchParams)
    (hsf : params.stopsFilter = some [3]) (hmp : params.maxPrice = none) :
    ∀ o, o ∈ apply_filters options params ↔ o ∈ options ∧ 3 ≤ o.stops := by
  intro o
  unfold apply_filters
  rw [hsf, hmp]
  simp only [mem_sortByPrice]
  constructor
  · intro h
    simp only [if_neg (by simp : ¬([3] : List Int) = []),
      if_pos (by simp : (3 : Int) ∈ [3]), List.mem_filter] at h
    obtain ⟨h1, h2⟩ := h
    refine ⟨h1, ?_⟩
    rcases of_decide_eq_true h2 with h3 | h3
    · simp only [List.mem_singleton] at h3
      omega
    · exact h3
  · intro ⟨h1, h2⟩
    simp only [if_neg (by simp : ¬([3] : List Int) = []),
      if_pos (by simp : (3 : Int) ∈ [3]), List.mem_filter]
    exact ⟨h1, decide_eq_true (Or.inr h2)⟩

/-- Witness for `apply_filters_stops_three_sentinel` at a concrete list
with stop counts 0, 1, 2, 3, 4, 5. -/
def stopsDemoOption (n : Int) : FlightOption :=
  { id := "o", airline := "BA", price := 100, currency := "GBP",
    departureDate := 0, returnDate := 2, stops := n, durationMinutes := 0 }

/-- Parameters selecting `stopsFilter = [3]`. -/
def stopsDemoParams : SearchParams :=
  { origin := "LHR", destination := "TLV", earliestDeparture := 0,
    latestDeparture := 2, minStayDays := 2, maxStayDays := 2,
    stopsFilter := some [3] }

theorem apply_filters_stops_three_sentinel_witness :
    stopsDemoParams.stopsFilter = some [3] ∧
    stopsDemoParams.maxPrice = none ∧
    ((stopsDemoOption 4 ∈
        apply_filters [stopsDemoOption 2, stopsDemoOption 4] stopsDemoParams ↔
      stopsDemoOption 4 ∈ [stopsDemoOption 2, stopsDemoOption 4] ∧
        3 ≤ (stopsDemoOption 4).stops) ∧
     (stopsDemoOption 2 ∈
        apply_filters [stopsDemoOption 2, stopsDemoOption 4] stopsDemoParams ↔
      stopsDemoOption 2 ∈ [stopsDemoOption 2, stopsDemoOption 4] ∧
        3 ≤ (stopsDemoOption 2).stops)) :=
  ⟨rfl, rfl,
   apply_filters_stops_three_sentinel [stopsDemoOption 2, stopsDemoOption 4]
     stopsDemoParams rfl rfl (stopsDemoOption 4),
   apply_filters_stops_three_sentinel [stopsDemoOption 2, stopsDemoOption 4]
     stopsDemoParams rfl rfl (stopsDemoOption 2)⟩

/-! ### The fairness balancer -/

/-- `key = o.airlineCode or o.airline or "Unknown"` (src/main.py line 315):
Python `or` takes the first truthy value, where `None` and `""` are falsy. -/
def groupKey (o : FlightOption) : String :=
  match o.airlineCode with
  | some c =>
    if c = "" then (if o.airline = "" then "Unknown" else o.airline) else c
  | none => if o.airline = "" then "Unknown" else o.airline

/-- `groups[key].append(o)` on an insertion-ordered dict, modelled as an
association list keyed in first-occurrence order. -/
def addToGroups (gs : List (String × List FlightOption)) (k : String)
    (o : FlightOption) : List (String × List FlightOption) :=
  match gs with
  | [] => [(k, [o])]
  | (k', os) :: rest =>
    if k' = k then (k', os ++ [o]) :: rest
    else (k', os) :: addToGroups rest k o

/-- The grouping loop of `balance_airlines` (src/main.py lines 313-316). -/
def buildGroups (options : List FlightOption) :
    List (String × List FlightOption) :=
  options.foldl (fun gs o => addToGroups gs (groupKey o) o) []

/-- Each airline group sorted ascending by price
(src/main.py lines 319-320). -/
def sortedGroups (options : List FlightOption) :
    List (String × List FlightOption) :=
  (buildGroups options).map (fun g => (g.1, sortByPrice g.2))

/-- `soft_cap = min(200, max(20, base_cap + 5))` with
`base_cap = max_total // num_airlines` (src/main.py lines 326-327). -/
def softCapOf (maxTotal numAirlines : Nat) : Nat :=
  min 200 (max 20 (maxTotal / numAirlines + 5))

/-- One pass of `for key, flights in groups.items()` inside the round-robin
`while` loop (src/main.py lines 334-344). An entry carries its key, its
remaining flights, and its `per_airline_count` counter; the pass pops the
cheapest remaining flight of every entry under the cap, breaking out as
soon as `selected` reaches `max_total`, and reports whether it made
progress. -/
def rrRound (softCap maxTotal : Nat) :
    List (String × List FlightOption × Nat) → List FlightOption → Bool →
    List (String × List FlightOption × Nat) × List FlightOption × Bool
  | [], sel, prog => ([], sel, prog)
  | (k, fl, c) :: rest, sel, prog =>
    match fl with
    | [] =>
      ((k, [], c) :: (rrRound softCap maxTotal rest sel prog).1,
       (rrRound softCap maxTotal rest sel prog).2)
    | f :: fs =>
      if softCap ≤ c then
        ((k, f :: fs, c) :: (rrRound softCap maxTotal rest sel prog).1,
         (rrRound softCap maxTotal rest sel prog).2)
      else
        if maxTotal ≤ (sel ++ [f]).length then
          ((k, fs, c + 1) :: rest, sel ++ [f], true)
        else
          ((k, fs, c + 1) :: (rrRound softCap maxTotal rest (sel ++ [f]) true).1,
           (rrRound softCap maxTotal rest (sel ++ [f]) true).2)

/-- `while len(selected) < max_total` (src/main.py lines 333-346), with
explicit fuel. Every recursive step follows a round that made progress,
and a progressing round pops at least one flight, so fuel equal to the
total number of grouped flights plus one never runs out before the loop's
own exit conditions fire. -/
def rrLoop (softCap maxTotal : Nat) :
    Nat → List (String × List FlightOption × Nat) → List FlightOption →
    List (String × List FlightOption × Nat) × List FlightOption
  | 0, entries, sel => (entries, sel)
  | fuel + 1, entries, sel =>
    if sel.length < maxTotal then
      if (rrRound softCap maxTotal entries sel false).2.2 then
        rrLoop softCap maxTotal fuel (rrRound softCap maxTotal entries sel false).1
          (rrRound softCap maxTotal entries sel false).2.1
      else
        ((rrRound softCap maxTotal entries sel false).1,
         (rrRound softCap maxTotal entries sel false).2.1)
    else (entries, sel)

/-- Total number of flights still held by the entries. -/
def entriesFlights (entries : List (String × List FlightOption × Nat)) : Nat :=
  (entries.map (fun e => e.2.1.length)).sum

/-- The whole round-robin selection phase of `balance_airlines`, starting
from the sorted groups with all counters at zero. -/
def rrPhase (groups : List (String × List FlightOption))
    (softCap maxTotal : Nat) :
    List (String × List FlightOption × Nat) × List FlightOption :=
  let entries := groups.map (fun g => (g.1, g.2, 0))
  rrLoop softCap maxTotal (entriesFlights entries + 1) entries []

/-- The backfill loop (src/main.py lines 354-357): append remaining
flights (already sorted by price) until `max_total` is reached. -/
def backfill (maxTotal : Nat) :
    List FlightOption → List FlightOption → List FlightOption
  | sel, [] => sel
  | sel, f :: fs =>
    if maxTotal ≤ sel.length then sel else backfill maxTotal (sel ++ [f]) fs

/-- `balance_airlines` (src/main.py lines 306-360). `max_total` is a
natural number: the orchestrator always passes
`min(max_offers_total, len(filtered)) ≥ 0`. -/
def balance_airlines (options : List FlightOption) (max_total : Nat) :
    List FlightOption :=
  if options = [] then []
  else
    let groups := sortedGroups options
    let num_airlines := groups.length
    if num_airlines = 0 then options.take max_total
    else
      let soft_cap := softCapOf max_total num_airlines
      let r := rrPhase groups soft_cap max_total
      let selected :=
        if r.2.length < max_total then
          backfill max_total r.2
            (sortByPrice (r.1.map (fun e => e.2.1)).flatten)
        else r.2
      (sortByPrice selected).take max_total

/-! ### Lemmas about airline grouping -/

theorem addToGroups_ne_nil (gs : List (String × List FlightOption))
    (k : String) (o : FlightOption) : addToGroups gs k o ≠ [] := by
  cases gs with
  | nil => simp [addToGroups]
  | cons g rest =>
    obtain ⟨k', os⟩ := g
    by_cases h : k' = k <;> simp [addToGroups, h]

theorem addToGroups_keys (gs : List (String × List FlightOption))
    (k : String) (o : FlightOption) :
    (addToGroups gs k o).map (fun g => g.1) =
      if k ∈ gs.map (fun g => g.1) then gs.map (fun g => g.1)
      else gs.map (fun g => g.1) ++ [k] := by
  induction gs with
  | nil => simp [addToGroups]
  | cons g rest ih =>
    obtain ⟨k', os⟩ := g
    by_cases h : k' = k
    · subst h
      simp [addToGroups]
    · simp only [addToGroups, if_neg h, List.map_cons, ih]
      by_cases hk : k ∈ rest.map (fun g => g.1)
      · rw [if_pos hk, if_pos (by simp [hk])]
      · rw [if_neg hk, if_neg (by simp [hk, Ne.symm h])]
        simp

theorem addToGroups_nodup (gs : List (String × List FlightOption))
    (k : String) (o : FlightOption)
    (h : (gs.map (fun g => g.1)).Nodup) :
    ((addToGroups gs k o).map (fun g => g.1)).Nodup := by
  rw [addToGroups_keys]
  by_cases hk : k ∈ gs.map (fun g => g.1)
  · rwa [if_pos hk]
  · rw [if_neg hk]
    refine List.nodup_append.mpr ⟨h, List.nodup_singleton k, ?_⟩
    intro x hx hx'
    simp only [List.mem_singleton] at hx'
    subst hx'
    exact hk hx

theorem addToGroups_cons_eq (k : String) (os : List FlightOption)
    (rest : List (String × List FlightOption)) (o : FlightOption) :
    addToGroups ((k, os) :: rest) k o = (k, os ++ [o]) :: rest := by
  simp [addToGroups]

theorem addToGroups_cons_ne (k' k : String) (os : List FlightOption)
    (rest : List (String × List FlightOption)) (o : FlightOption)
    (h : k' ≠ k) :
    addToGroups ((k', os) :: rest) k o = (k', os) :: addToGroups rest k o := by
  simp [addToGroups, h]

theorem addToGroups_pure (gs : List (String × List FlightOption))
    (k : String) (o : FlightOption)
    (hpure : ∀ g ∈ gs, ∀ x ∈ g.2, groupKey x = g.1)
    (ho : groupKey o = k) :
    ∀ g ∈ addToGroups gs k o, ∀ x ∈ g.2, groupKey x = g.1 := by
  induction gs with
  | nil =>
    intro g hg x hx
    simp only [addToGroups, List.mem_singleton] at hg
    subst hg
    simp only [List.mem_singleton] at hx
    subst hx
    exact ho
  | cons ghead rest ih =>
    obtain ⟨k', os⟩ := ghead
    intro g hg x hx
    by_cases h : k' = k
    · subst h
      rw [addToGroups_cons_eq] at hg
      rcases List.mem_cons.mp hg with hgeq | hg
      · subst hgeq
        change x ∈ os ++ [o] at hx
        show groupKey x = k'
        rcases List.mem_append.mp hx with hx' | hx'
        · exact hpure (k', os) (List.mem_cons_self _ _) x hx'
        · rw [List.mem_singleton.mp hx']
          exact ho
      · exact hpure g (List.mem_cons_of_mem _ hg) x hx
    · rw [addToGroups_cons_ne k' k os rest o h] at hg
      rcases List.mem_cons.mp hg with hgeq | hg
      · subst hgeq
        exact hpure (k', os) (List.mem_cons_self _ _) x hx
      · exact ih (fun g' hg' => hpure g' (List.mem_cons_of_mem _ hg')) g hg x hx

theorem foldlGroups_pure :
    ∀ (opts : List FlightOption) (gs : List (String × List FlightOption)),
      (∀ g ∈ gs, ∀ x ∈ g.2, groupKey x = g.1) →
      ∀ g ∈ opts.foldl (fun gs o => addToGroups gs (groupKey o) o) gs,
        ∀ x ∈ g.2, groupKey x = g.1 := by
  intro opts
  induction opts with
  | nil => intro gs h; simpa using h
  | cons o os ih =>
    intro gs h
    simp only [List.foldl_cons]
    exact ih _ (addToGroups_pure _ _ _ h rfl)

theorem foldlGroups_nodup :
    ∀ (opts : List FlightOption) (gs : List (String × List FlightOption)),
      (gs.map (fun g => g.1)).Nodup →
      (((opts.foldl (fun gs o => addToGroups gs (groupKey o) o) gs)).map
        (fun g => g.1)).Nodup := by
  intro opts
  induction opts with
  | nil => intro gs h; simpa using h
  | cons o os ih =>
    intro gs h
    simp only [List.foldl_cons]
    exact ih _ (addToGroups_nodup _ _ _ h)

theorem foldlGroups_ne_nil :
    ∀ (opts : List FlightOption) (gs : List (String × List FlightOption)),
      gs ≠ [] →
      opts.foldl (fun gs o => addToGroups gs (groupKey o) o) gs ≠ [] := by
  intro opts
  induction opts with
  | nil => intro gs h; simpa using h
  | cons o os ih =>
    intro gs _
    simp only [List.foldl_cons]
    exact ih _ (addToGroups_ne_nil _ _ _)

theorem buildGroups_pure (options : List FlightOption) :
    ∀ g ∈ buildGroups options, ∀ x ∈ g.2, groupKey x = g.1 :=
  foldlGroups_pure options [] (by simp)

theorem buildGroups_nodup (options : List FlightOption) :
    ((buildGroups options).map (fun g => g.1)).Nodup :=
  foldlGroups_nodup options [] (by simp)

theorem buildGroups_ne_nil (options : List FlightOption) (h : options ≠ []) :
    buildGroups options ≠ [] := by
  cases options with
  | nil => exact absurd rfl h
  | cons o os =>
    show (o :: os).foldl (fun gs o => addToGroups gs (groupKey o) o) [] ≠ []
    simp only [List.foldl_cons]
    exact foldlGroups_ne_nil os _ (addToGroups_ne_nil _ _ _)

theorem sortedGroups_pure (options : List FlightOption) :
    ∀ g ∈ sortedGroups options, ∀ x ∈ g.2, groupKey x = g.1 := by
  intro g hg x hx
  simp only [sortedGroups, List.mem_map] at hg
  obtain ⟨g0, hg0, rfl⟩ := hg
  exact buildGroups_pure options g0 hg0 x (mem_sortByPrice.mp hx)

theorem sortedGroups_nodup (options : List FlightOption) :
    ((sortedGroups options).map (fun g => g.1)).Nodup := by
  have : (sortedGroups options).map (fun g => g.1) =
      (buildGroups options).map (fun g => g.1) := by
    simp [sortedGroups, List.map_map]
  rw [this]
  exact buildGroups_nodup options

theorem sortedGroups_ne_nil (options : List FlightOption) (h : options ≠ []) :
    sortedGroups options ≠ [] := by
  simp only [sortedGroups, ne_eq, List.map_eq_nil_iff]
  exact buildGroups_ne_nil options h

/-! ### Round-robin invariants -/

/-- Number of options in `l` whose airline group key is `k`. -/
def keyCount (k : String) (l : List FlightOption) : Nat :=
  l.countP (fun o => decide (groupKey o = k))

theorem keyCount_nil (k : String) : keyCount k [] = 0 := rfl

theorem keyCount_snoc_self {k : String} {f : FlightOption}
    (l : List FlightOption) (h : groupKey f = k) :
    keyCount k (l ++ [f]) = keyCount k l + 1 := by
  simp [keyCount, List.countP_append, List.countP_cons, h]

theorem keyCount_snoc_ne {k : String} {f : FlightOption}
    (l : List FlightOption) (h : groupKey f ≠ k) :
    keyCount k (l ++ [f]) = keyCount k l := by
  simp [keyCount, List.countP_append, List.countP_cons, h]

/-- The keys of a round-robin entry list, in order. -/
def keysOfEntries (es : List (String × List FlightOption × Nat)) : List String :=
  es.map (fun e => e.1)

theorem keysOfEntries_cons (e : String × List FlightOption × Nat)
    (es : List (String × List FlightOption × Nat)) :
    keysOfEntries (e :: es) = e.1 :: keysOfEntries es := rfl

/-- Unfolding equations of `rrRound`, one per branch of the loop body. -/
theorem rrRound_entry_empty (softCap maxTotal : Nat) (k0 : String) (c0 : Nat)
    (rest : List (String × List FlightOption × Nat))
    (sel : List FlightOption) (prog : Bool) :
    rrRound softCap maxTotal ((k0, ([] : List FlightOption), c0) :: rest) sel prog =
      ((k0, [], c0) :: (rrRound softCap maxTotal rest sel prog).1,
       (rrRound softCap maxTotal rest sel prog).2) := rfl

theorem rrRound_capped (softCap maxTotal : Nat) (k0 : String) (c0 : Nat)
    (f : FlightOption) (fs : List FlightOption)
    (rest : List (String × List FlightOption × Nat))
    (sel : List FlightOption) (prog : Bool) (hc : softCap ≤ c0) :
    rrRound softCap maxTotal ((k0, f :: fs, c0) :: rest) sel prog =
      ((k0, f :: fs, c0) :: (rrRound softCap maxTotal rest sel prog).1,
       (rrRound softCap maxTotal rest sel prog).2) := by
  simp only [rrRound, if_pos hc]

theorem rrRound_break (softCap maxTotal : Nat) (k0 : String) (c0 : Nat)
    (f : FlightOption) (fs : List FlightOption)
    (rest : List (String × List FlightOption × Nat))
    (sel : List FlightOption) (prog : Bool) (hc : ¬ softCap ≤ c0)
    (hml : maxTotal ≤ (sel ++ [f]).length) :
    rrRound softCap maxTotal ((k0, f :: fs, c0) :: rest) sel prog =
      ((k0, fs, c0 + 1) :: rest, sel ++ [f], true) := by
  simp only [rrRound, if_neg hc, if_pos hml]

theorem rrRound_pop (softCap maxTotal : Nat) (k0 : String) (c0 : Nat)
    (f : FlightOption) (fs : List FlightOption)
    (rest : List (String × List FlightOption × Nat))
    (sel : List FlightOption) (prog : Bool) (hc : ¬ softCap ≤ c0)
    (hml : ¬ maxTotal ≤ (sel ++ [f]).length) :
    rrRound softCap maxTotal ((k0, f :: fs, c0) :: rest) sel prog =
      ((k0, fs, c0 + 1) :: (rrRound softCap maxTotal rest (sel ++ [f]) true).1,
       (rrRound softCap maxTotal rest (sel ++ [f]) true).2) := by
  simp only [rrRound, if_neg hc, if_neg hml]

/-- Invariant of the round-robin selection: every entry holds only options
of its own key, its counter bounds the number of its options already
selected, and no counter exceeds the soft cap. -/
def RRInv (softCap : Nat) (es : List (String × List FlightOption × Nat))
    (sel : List FlightOption) : Prop :=
  ∀ e ∈ es, (∀ o ∈ e.2.1, groupKey o = e.1) ∧
    keyCount e.1 sel ≤ e.2.2 ∧ e.2.2 ≤ softCap

theorem rrRound_inv (softCap maxTotal : Nat) :
    ∀ (es : List (String × List FlightOption × Nat)) (sel : List FlightOption)
      (prog : Bool),
      (keysOfEntries es).Nodup → RRInv softCap es sel →
      keysOfEntries (rrRound softCap maxTotal es sel prog).1 = keysOfEntries es ∧
      RRInv softCap (rrRound softCap maxTotal es sel prog).1
        (rrRound softCap maxTotal es sel prog).2.1 ∧
      (∀ k, k ∉ keysOfEntries es →
        keyCount k (rrRound softCap maxTotal es sel prog).2.1 = keyCount k sel) := by
  intro es
  induction es with
  | nil =>
    intro sel prog _ _
    refine ⟨rfl, ?_, fun k _ => rfl⟩
    intro e he
    simp [rrRound] at he
  | cons e0 rest ih =>
    obtain ⟨k0, fl0, c0⟩ := e0
    intro sel prog hnd hinv
    have hhead := hinv (k0, fl0, c0) (List.mem_cons_self _ _)
    have htail : RRInv softCap rest sel :=
      fun e he => hinv e (List.mem_cons_of_mem _ he)
    have hnd2 : (k0 :: keysOfEntries rest).Nodup := hnd
    have hndc := List.nodup_cons.mp hnd2
    have hk0notin : k0 ∉ keysOfEntries rest := hndc.1
    have hnd' : (keysOfEntries rest).Nodup := hndc.2
    have hne_of_mem : ∀ e ∈ rest, e.1 ≠ k0 := by
      intro e he heq
      exact hk0notin (heq ▸ List.mem_map_of_mem (fun e => e.1) he)
    cases fl0 with
    | nil =>
      obtain ⟨hkeys, hinv', hother⟩ := ih sel prog hnd' htail
      rw [rrRound_entry_empty]
      refine ⟨?_, ?_, ?_⟩
      · rw [keysOfEntries_cons, keysOfEntries_cons, hkeys]
      · intro e he
        rcases List.mem_cons.mp he with rfl | he'
        · exact ⟨by simp, by rw [hother k0 hk0notin]; exact hhead.2.1, hhead.2.2⟩
        · exact hinv' e he'
      · intro k hk
        rw [keysOfEntries_cons] at hk
        exact hother k (fun h => hk (List.mem_cons_of_mem _ h))
    | cons f fs =>
      have hf : groupKey f = k0 := hhead.1 f (List.mem_cons_self _ _)
      by_cases hc : softCap ≤ c0
      · obtain ⟨hkeys, hinv', hother⟩ := ih sel prog hnd' htail
        rw [rrRound_capped softCap maxTotal k0 c0 f fs rest sel prog hc]
        refine ⟨?_, ?_, ?_⟩
        · rw [keysOfEntries_cons, keysOfEntries_cons, hkeys]
        · intro e he
          rcases List.mem_cons.mp he with rfl | he'
          · exact ⟨hhead.1, by rw [hother k0 hk0notin]; exact hhead.2.1, hhead.2.2⟩
          · exact hinv' e he'
        · intro k hk
          rw [keysOfEntries_cons] at hk
          exact hother k (fun h => hk (List.mem_cons_of_mem _ h))
      · by_cases hml : maxTotal ≤ (sel ++ [f]).length
        · rw [rrRound_break softCap maxTotal k0 c0 f fs rest sel prog hc hml]
          refine ⟨?_, ?_, ?_⟩
          · rw [keysOfEntries_cons, keysOfEntries_cons]
          · intro e he
            rcases List.mem_cons.mp he with rfl | he'
            · refine ⟨fun o ho => hhead.1 o (List.mem_cons_of_mem _ ho), ?_, ?_⟩
              · show keyCount k0 (sel ++ [f]) ≤ c0 + 1
                rw [keyCount_snoc_self sel hf]
                exact Nat.add_le_add_right hhead.2.1 1
              · exact Nat.succ_le_of_lt (Nat.lt_of_not_le hc)
            · obtain ⟨hp, hcnt, hcap⟩ := htail e he'
              refine ⟨hp, ?_, hcap⟩
              show keyCount e.1 (sel ++ [f]) ≤ e.2.2
              rw [keyCount_snoc_ne sel (by
                rw [hf]; exact fun hEq => hne_of_mem e he' hEq.symm)]
              exact hcnt
          · intro k hk
            rw [keysOfEntries_cons] at hk
            have hkne : k ≠ k0 := fun hEq => hk (hEq ▸ List.mem_cons_self _ _)
            show keyCount k (sel ++ [f]) = keyCount k sel
            exact keyCount_snoc_ne sel (by
              rw [hf]; exact fun hEq => hkne hEq.symm)
        · have htail2 : RRInv softCap rest (sel ++ [f]) := by
            intro e he
            obtain ⟨hp, hcnt, hcap⟩ := htail e he
            refine ⟨hp, ?_, hcap⟩
            rw [keyCount_snoc_ne sel (by
              rw [hf]; exact fun hEq => hne_of_mem e he hEq.symm)]
            exact hcnt
          obtain ⟨hkeys, hinv', hother⟩ := ih (sel ++ [f]) true hnd' htail2
          rw [rrRound_pop softCap maxTotal k0 c0 f fs rest sel prog hc hml]
          refine ⟨?_, ?_, ?_⟩
          · rw [keysOfEntries_cons, keysOfEntries_cons, hkeys]
          · intro e he
            rcases List.mem_cons.mp he with rfl | he'
            · refine ⟨fun o ho => hhead.1 o (List.mem_cons_of_mem _ ho), ?_, ?_⟩
              · show keyCount k0
                  (rrRound softCap maxTotal rest (sel ++ [f]) true).2.1 ≤ c0 + 1
                rw [hother k0 hk0notin, keyCount_snoc_self sel hf]
                exact Nat.add_le_add_right hhead.2.1 1
              · exact Nat.succ_le_of_lt (Nat.lt_of_not_le hc)
            · exact hinv' e he'
          · intro k hk
            rw [keysOfEntries_cons] at hk
            have hkne : k ≠ k0 := fun hEq => hk (hEq ▸ List.mem_cons_self _ _)
            have hknr : k ∉ keysOfEntries rest :=
              fun h => hk (List.mem_cons_of_mem _ h)
            rw [hother k hknr]
            exact keyCount_snoc_ne sel (by
              rw [hf]; exact fun hEq => hkne hEq.symm)

theorem rrLoop_inv (softCap maxTotal : Nat) :
    ∀ (fuel : Nat) (es : List (String × List FlightOption × Nat))
      (sel : List FlightOption),
      (keysOfEntries es).Nodup → RRInv softCap es sel →
      keysOfEntries (rrLoop softCap maxTotal fuel es sel).1 = keysOfEntries es ∧
      RRInv softCap (rrLoop softCap maxTotal fuel es sel).1
        (rrLoop softCap maxTotal fuel es sel).2 ∧
      (∀ k, k ∉ keysOfEntries es →
        keyCount k (rrLoop softCap maxTotal fuel es sel).2 = keyCount k sel) := by
  intro fuel
  induction fuel with
  | zero =>
    intro es sel _ hinv
    exact ⟨rfl, hinv, fun k _ => rfl⟩
  | succ fuel ih =>
    intro es sel hnd hinv
    simp only [rrLoop]
    by_cases hlen : sel.length < maxTotal
    · rw [if_pos hlen]
      obtain ⟨hk1, hi1, ho1⟩ := rrRound_inv softCap maxTotal es sel false hnd hinv
      by_cases hpr : (rrRound softCap maxTotal es sel false).2.2
      · rw [if_pos hpr]
        have hnd1 : (keysOfEntries (rrRound softCap maxTotal es sel false).1).Nodup := by
          rw [hk1]; exact hnd
        obtain ⟨hk2, hi2, ho2⟩ := ih _ _ hnd1 hi1
        refine ⟨hk2.trans hk1, hi2, ?_⟩
        intro k hk
        have hk' : k ∉ keysOfEntries (rrRound softCap maxTotal es sel false).1 := by
          rw [hk1]; exact hk
        rw [ho2 k hk', ho1 k hk]
      · rw [if_neg hpr]
        exact ⟨hk1, hi1, ho1⟩
    · rw [if_neg hlen]
      exact ⟨rfl, hinv, fun k _ => rfl⟩

theorem rrPhase_keyCount (groups : List (String × List FlightOption))
    (softCap maxTotal : Nat)
    (hpure : ∀ g ∈ groups, ∀ x ∈ g.2, groupKey x = g.1)
    (hnodup : (groups.map (fun g => g.1)).Nodup) :
    ∀ k, keyCount k (rrPhase groups softCap maxTotal).2 ≤ softCap := by
  intro k
  have hkeys0 : keysOfEntries (groups.map (fun g => (g.1, g.2, 0))) =
      groups.map (fun g => g.1) := by
    simp [keysOfEntries, List.map_map]
  have hnd : (keysOfEntries (groups.map (fun g => (g.1, g.2, 0)))).Nodup := by
    rw [hkeys0]; exact hnodup
  have hinv : RRInv softCap (groups.map (fun g => (g.1, g.2, 0))) [] := by
    intro e he
    simp only [List.mem_map] at he
    obtain ⟨g, hg, rfl⟩ := he
    exact ⟨fun o ho => hpure g hg o ho, Nat.le_refl 0, Nat.zero_le _⟩
  obtain ⟨hk1, hi1, ho1⟩ := rrLoop_inv softCap maxTotal
    (entriesFlights (groups.map (fun g => (g.1, g.2, 0))) + 1)
    (groups.map (fun g => (g.1, g.2, 0))) [] hnd hinv
  show keyCount k (rrLoop softCap maxTotal
    (entriesFlights (groups.map (fun g => (g.1, g.2, 0))) + 1)
    (groups.map (fun g => (g.1, g.2, 0))) []).2 ≤ softCap
  by_cases hmem : k ∈ keysOfEntries (rrLoop softCap maxTotal
    (entriesFlights (groups.map (fun g => (g.1, g.2, 0))) + 1)
    (groups.map (fun g => (g.1, g.2, 0))) []).1
  · rcases List.mem_map.mp hmem with ⟨e, he, hek⟩
    have h2 := hi1 e he
    rw [← hek]
    exact h2.2.1.trans h2.2.2
  · rw [hk1] at hmem
    rw [ho1 k hmem, keyCount_nil]
    exact Nat.zero_le _

/-- C6: for every input list and every `maxTotal`, the fairness balancer
returns at most `maxTotal` options, sorted ascending by price; and
whenever the round-robin phase alone reaches `maxTotal` (so the backfill
step is skipped), no single airline group contributes more than
`softCap = clamp(maxTotal / numAirlines + 5, 20, 200)` options to the
output. -/
theorem balance_airlines_bounded_sorted_cap (options : List FlightOption)
    (maxTotal : Nat) :
    (balance_airlines options maxTotal).length ≤ maxTotal ∧
    List.Sorted priceLe (balance_airlines options maxTotal) ∧
    (maxTotal ≤ (rrPhase (sortedGroups options)
        (softCapOf maxTotal (sortedGroups options).length) maxTotal).2.length →
      ∀ k, keyCount k (balance_airlines options maxTotal) ≤
        softCapOf maxTotal (sortedGroups options).length) := by
  by_cases hopts : options = []
  · subst hopts
    refine ⟨by simp [balance_airlines], by simp [balance_airlines], ?_⟩
    intro _ k
    simp only [balance_airlines, if_pos rfl, keyCount_nil]
    exact Nat.zero_le _
  · have hgne : sortedGroups options ≠ [] := sortedGroups_ne_nil options hopts
    have hglen : ¬ (sortedGroups options).length = 0 := by
      simpa [List.length_eq_zero] using hgne
    have hbal : balance_airlines options maxTotal =
        (sortByPrice (if (rrPhase (sortedGroups options)
            (softCapOf maxTotal (sortedGroups options).length) maxTotal).2.length
            < maxTotal then
          backfill maxTotal
            (rrPhase (sortedGroups options)
              (softCapOf maxTotal (sortedGroups options).length) maxTotal).2
            (sortByPrice ((rrPhase (sortedGroups options)
              (softCapOf maxTotal (sortedGroups options).length)
              maxTotal).1.map (fun e => e.2.1)).flatten)
        else (rrPhase (sortedGroups options)
          (softCapOf maxTotal (sortedGroups options).length)
          maxTotal).2)).take maxTotal := by
      simp only [balance_airlines, if_neg hopts, if_neg hglen]
    refine ⟨?_, ?_, ?_⟩
    · rw [hbal, List.length_take]
      exact Nat.min_le_left _ _
    · rw [hbal]
      exact List.Pairwise.sublist (List.take_sublist _ _) (sorted_sortByPrice _)
    · intro hrr k
      have hnolt : ¬ (rrPhase (sortedGroups options)
          (softCapOf maxTotal (sortedGroups options).length)
          maxTotal).2.length < maxTotal := Nat.not_lt.mpr hrr
      rw [hbal, if_neg hnolt]
      calc keyCount k ((sortByPrice (rrPhase (sortedGroups options)
            (softCapOf maxTotal (sortedGroups options).length)
            maxTotal).2).take maxTotal)
          ≤ keyCount k (sortByPrice (rrPhase (sortedGroups options)
            (softCapOf maxTotal (sortedGroups options).length) maxTotal).2) :=
            List.Sublist.countP_le _ (List.take_sublist _ _)
        _ = keyCount k (rrPhase (sortedGroups options)
            (softCapOf maxTotal (sortedGroups options).length) maxTotal).2 :=
            (perm_sortByPrice _).countP_eq _
        _ ≤ softCapOf maxTotal (sortedGroups options).length :=
            rrPhase_keyCount _ _ _ (sortedGroups_pure options)
              (sortedGroups_nodup options) k

/-- Two concrete options per airline for the balancer witness. -/
def balOption (a : String) (p : Rat) : FlightOption :=
  { id := "b", airline := a, airlineCode := some a, price := p,
    currency := "GBP", departureDate := 0, returnDate := 2, stops := 0,
    durationMinutes := 0 }

/-- Witness for `balance_airlines_bounded_sorted_cap` at a concrete input
where the round-robin phase alone reaches `maxTotal = 2`. -/
theorem balance_airlines_bounded_sorted_cap_witness :
    (2 ≤ (rrPhase (sortedGroups
        [balOption "BA" 100, balOption "LH" 150, balOption "BA" 200])
        (softCapOf 2 (sortedGroups
          [balOption "BA" 100, balOption "LH" 150, balOption "BA" 200]).length)
        2).2.length) ∧
    keyCount "BA" (balance_airlines
        [balOption "BA" 100, balOption "LH" 150, balOption "BA" 200] 2) ≤
      softCapOf 2 (sortedGroups
        [balOption "BA" 100, balOption "LH" 150, balOption "BA" 200]).length :=
  ⟨by decide,
   (balance_airlines_bounded_sorted_cap
      [balOption "BA" 100, balOption "LH" 150, balOption "BA" 200] 2).2.2
     (by decide) "BA"⟩

/-! ### The search orchestrator -/

/-- Outcome of the provider calls for one date pair: an HTTP or unexpected
error (the pair is skipped, src/main.py lines 435-440), an offer request
without an id (the pair is skipped, line 430-431), or the offer list
returned by `duffel_list_offers` before the per-pair truncation. -/
inductive ProviderResponse where
  | error
  | noId
  | offers (os : List RawOffer)

/-- `x or default` for an optional integer tuning field: Python treats
both `None` and `0` as falsy (src/main.py lines 384-386). -/
def pyOrInt (v : Option Int) (d : Int) : Int :=
  match v with
  | none => d
  | some x => if x = 0 then d else x

/-- `max(10, min(client_max_per_pair, 300))` (src/main.py line 388). -/
def resolvedMaxOffersPerPair (params : SearchParams) : Int :=
  max 10 (min (pyOrInt params.maxOffersPerPair 50) 300)

/-- `max(100, min(client_max_total, 15000))` (src/main.py line 389). -/
def resolvedMaxOffersTotal (params : SearchParams) : Int :=
  max 100 (min (pyOrInt params.maxOffersTotal 5000) 15000)

/-- `max(1, min(client_max_pairs, 60))` (src/main.py line 390). -/
def resolvedMaxDatePairs (params : SearchParams) : Int :=
  max 1 (min (pyOrInt params.maxDatePairs 20) 60)

/-- The date pairs the orchestrator iterates (src/main.py line 392). -/
def resolvedDatePairs (params : SearchParams) : List (Int × Int) :=
  generate_date_pairs params (resolvedMaxDatePairs params).toNat

/-- Mutable state of the pair loop: the collected `(offer, dep, ret)`
triples, `total_count`, the arguments of every `progress_hook` call made
so far, and the number of pairs for which a provider request was
attempted. -/
structure LoopState where
  collected : List (RawOffer × Int × Int)
  totalCount : Nat
  trace : List (Nat × Nat × Nat)
  calls : Nat
deriving Repr

/-- `enumerate(date_pairs, start=1)`. -/
def enumFrom {α : Type} (i : Nat) : List α → List (Nat × α)
  | [] => []
  | x :: xs => (i, x) :: enumFrom (i + 1) xs

/-- Inner `for offer in offers_json` loop (src/main.py lines 442-446):
collect each offer, incrementing `total_count` and breaking as soon as
the global budget is reached. -/
def collectOffers (maxTotal : Nat) (dep ret : Int) :
    List RawOffer → List (RawOffer × Int × Int) → Nat →
    List (RawOffer × Int × Int) × Nat
  | [], coll, cnt => (coll, cnt)
  | o :: os, coll, cnt =>
    if maxTotal ≤ cnt + 1 then (coll ++ [(o, dep, ret)], cnt + 1)
    else collectOffers maxTotal dep ret os (coll ++ [(o, dep, ret)]) (cnt + 1)

/-- The pair loop of `run_search_core` (src/main.py lines 406-446): before
each pair only the global offer-count budget is checked (`break` when
reached); then the progress hook fires with `(idx - 1, total_pairs,
total_count)`, the provider is consulted (counted in `calls`), a failure
or missing request id skips the pair, and otherwise up to
`min(max_offers_per_pair, max_offers_total - total_count)` offers are
collected. -/
def searchLoop (provider : Int × Int → ProviderResponse)
    (maxPerPair maxTotal totalPairs : Nat) :
    List (Nat × (Int × Int)) → LoopState → LoopState
  | [], st => st
  | (idx, pr) :: rest, st =>
    if maxTotal ≤ st.totalCount then st
    else
      let st1 : LoopState :=
        { st with trace := st.trace ++ [(idx - 1, totalPairs, st.totalCount)],
                  calls := st.calls + 1 }
      match provider pr with
      | ProviderResponse.error =>
        searchLoop provider maxPerPair maxTotal totalPairs rest st1
      | ProviderResponse.noId =>
        searchLoop provider maxPerPair maxTotal totalPairs rest st1
      | ProviderResponse.offers os =>
        let limit := min maxPerPair (maxTotal - st1.totalCount)
        let r := collectOffers maxTotal pr.1 pr.2 (os.take limit)
          st1.collected st1.totalCount
        searchLoop provider maxPerPair maxTotal totalPairs rest
          { st1 with collected := r.1, totalCount := r.2 }

/-- The result dict of `run_search_core`; `none` models an absent key. -/
structure SearchResult where
  status : String
  source : String
  options : List FlightOption
  total_pairs : Option Nat := none
  done_pairs : Option Nat := none
deriving Repr, DecidableEq

/-- What one invocation of `run_search_core` produces: the returned dict
(or a raised exception, as `Except.error`), the arguments of all progress
hook calls, and the number of pairs for which a provider request was
attempted. -/
structure RunOutput where
  result : Except Unit SearchResult
  trace : List (Nat × Nat × Nat)
  calls : Nat
deriving Repr

/-- The list comprehension mapping all collected offers
(src/main.py lines 460-463): the first offer whose mapping raises aborts
the whole comprehension. -/
def mapAll (dir : AirlineDirectory) :
    List (RawOffer × Int × Int) → Except Unit (List FlightOption)
  | [] => Except.ok []
  | (o, dep, ret) :: rest =>
    match map_duffel_offer_to_option dir o dep ret with
    | Except.error e => Except.error e
    | Except.ok fo =>
      match mapAll dir rest with
      | Except.error e => Except.error e
      | Except.ok tail => Except.ok (fo :: tail)

/-- Tail of `run_search_core` after the pair loop
(src/main.py lines 448-476): fire the final progress hook with
`(total_pairs, total_pairs, total_count)`, then either report no results,
or map, filter and balance the collected offers. -/
def runAfterLoop (max_offers_total : Nat) (dir : AirlineDirectory)
    (params : SearchParams) (total_pairs : Nat) (st : LoopState) :
    RunOutput :=
  let trace := st.trace ++ [(total_pairs, total_pairs, st.totalCount)]
  if st.collected = [] then
    { result := Except.ok
        { status := "ok", source := "duffel_no_results", options := [],
          total_pairs := some total_pairs,
          done_pairs := some total_pairs },
      trace := trace, calls := st.calls }
  else
    match mapAll dir st.collected with
    | Except.error e =>
      { result := Except.error e, trace := trace, calls := st.calls }
    | Except.ok mapped =>
      let filtered := apply_filters mapped params
      let max_total_for_balance := min max_offers_total filtered.length
      let balanced := balance_airlines filtered max_total_for_balance
      { result := Except.ok
          { status := "ok", source := "duffel", options := balanced,
            total_pairs := some total_pairs,
            done_pairs := some total_pairs },
        trace := trace, calls := st.calls }

/-- `run_search_core` (src/main.py lines 365-476), parameterized by the
`DUFFEL_ACCESS_TOKEN` environment value, the airline directory, and the
provider oracle. -/
def run_search_core (token : Option String) (dir : AirlineDirectory)
    (provider : Int × Int → ProviderResponse) (params : SearchParams) :
    RunOutput :=
  if token.getD "" = "" then
    { result := Except.ok
        { status := "error", source := "duffel_not_configured", options := [] },
      trace := [], calls := 0 }
  else
    let max_offers_per_pair := (resolvedMaxOffersPerPair params).toNat
    let max_offers_total := (resolvedMaxOffersTotal params).toNat
    let date_pairs := resolvedDatePairs params
    if date_pairs = [] then
      { result := Except.ok
          { status := "ok", source := "no_date_pairs", options := [],
            total_pairs := some 0, done_pairs := some 0 },
        trace := [], calls := 0 }
    else
      runAfterLoop max_offers_total dir params date_pairs.length
        (searchLoop provider max_offers_per_pair max_offers_total
          date_pairs.length (enumFrom 1 date_pairs)
          { collected := [], totalCount := 0, trace := [], calls := 0 })

/-- The option list of a run, empty when the run raised. -/
def resultOptions (r : RunOutput) : List FlightOption :=
  match r.result with
  | Except.ok s => s.options
  | Except.error _ => []

theorem runAfterLoop_spec (max_offers_total : Nat) (dir : AirlineDirectory)
    (params : SearchParams) (total_pairs : Nat) (st : LoopState) :
    (runAfterLoop max_offers_total dir params total_pairs st).trace =
      st.trace ++ [(total_pairs, total_pairs, st.totalCount)] ∧
    (runAfterLoop max_offers_total dir params total_pairs st).calls = st.calls ∧
    (∀ s, (runAfterLoop max_offers_total dir params total_pairs st).result =
        Except.ok s →
      s.status = "ok" ∧ s.done_pairs = some total_pairs ∧
      s.total_pairs = some total_pairs) := by
  by_cases hcol : st.collected = []
  · refine ⟨?_, ?_, ?_⟩
    · simp only [runAfterLoop, if_pos hcol]
    · simp only [runAfterLoop, if_pos hcol]
    · intro s hs
      simp only [runAfterLoop, if_pos hcol, Except.ok.injEq] at hs
      rw [← hs]
      exact ⟨rfl, rfl, rfl⟩
  · cases hmap : mapAll dir st.collected with
    | error e =>
      refine ⟨?_, ?_, ?_⟩
      · simp only [runAfterLoop, if_neg hcol, hmap]
      · simp only [runAfterLoop, if_neg hcol, hmap]
      · intro s hs
        simp only [runAfterLoop, if_neg hcol, hmap] at hs
        exact absurd hs (by simp)
    | ok mapped =>
      refine ⟨?_, ?_, ?_⟩
      · simp only [runAfterLoop, if_neg hcol, hmap]
      · simp only [runAfterLoop, if_neg hcol, hmap]
      · intro s hs
        simp only [runAfterLoop, if_neg hcol, hmap, Except.ok.injEq] at hs
        rw [← hs]
        exact ⟨rfl, rfl, rfl⟩

theorem run_search_core_configured_eq (token : Option String)
    (dir : AirlineDirectory) (provider : Int × Int → ProviderResponse)
    (params : SearchParams) (htok : ¬ token.getD "" = "")
    (hpairs : ¬ resolvedDatePairs params = []) :
    run_search_core token dir provider params =
      runAfterLoop (resolvedMaxOffersTotal params).toNat dir params
        (resolvedDatePairs params).length
        (searchLoop provider (resolvedMaxOffersPerPair params).toNat
          (resolvedMaxOffersTotal params).toNat (resolvedDatePairs params).length
          (enumFrom 1 (resolvedDatePairs params))
          { collected := [], totalCount := 0, trace := [], calls := 0 }) := by
  simp only [run_search_core, if_neg htok, if_neg hpairs]

theorem collectOffers_count_le (maxTotal : Nat) (dep ret : Int) :
    ∀ (os : List RawOffer) (coll : List (RawOffer × Int × Int)) (cnt : Nat),
      cnt < maxTotal →
      (collectOffers maxTotal dep ret os coll cnt).2 ≤ maxTotal := by
  intro os
  induction os with
  | nil => intro coll cnt h; exact Nat.le_of_lt h
  | cons o rest ih =>
    intro coll cnt h
    simp only [collectOffers]
    by_cases hb : maxTotal ≤ cnt + 1
    · rw [if_pos hb]
      exact Nat.succ_le_of_lt h
    · rw [if_neg hb]
      exact ih _ _ (Nat.lt_of_not_le hb)

theorem searchLoop_count_le (provider : Int × Int → ProviderResponse)
    (maxPerPair maxTotal totalPairs : Nat) :
    ∀ (pairs : List (Nat × (Int × Int))) (st : LoopState),
      st.totalCount ≤ maxTotal →
      (searchLoop provider maxPerPair maxTotal totalPairs pairs st).totalCount ≤
        maxTotal := by
  intro pairs
  induction pairs with
  | nil => intro st h; exact h
  | cons hd rest ih =>
    obtain ⟨idx, pr⟩ := hd
    intro st h
    simp only [searchLoop]
    by_cases hb : maxTotal ≤ st.totalCount
    · rw [if_pos hb]
      exact h
    · rw [if_neg hb]
      cases hpv : provider pr with
      | error => exact ih _ h
      | noId => exact ih _ h
      | offers os =>
        refine ih _ ?_
        exact collectOffers_count_le maxTotal pr.1 pr.2 _ _ _
          (Nat.lt_of_not_le hb)

theorem searchLoop_stops (provider : Int × Int → ProviderResponse)
    (maxPerPair maxTotal totalPairs : Nat) (idx : Nat) (pr : Int × Int)
    (rest : List (Nat × (Int × Int))) (st : LoopState)
    (h : maxTotal ≤ st.totalCount) :
    searchLoop provider maxPerPair maxTotal totalPairs ((idx, pr) :: rest) st =
      st := by
  simp only [searchLoop, if_pos h]

/-- C7: with no provider credential configured (`DUFFEL_ACCESS_TOKEN`
unset or empty), `run_search_core` returns exactly
`{status: "error", source: "duffel_not_configured", options: []}`
immediately: for every provider oracle the output is the same constant,
no progress hook fires, and no provider call is attempted. -/
theorem run_search_core_not_configured (token : Option String)
    (dir : AirlineDirectory) (provider : Int × Int → ProviderResponse)
    (params : SearchParams) (h : token.getD "" = "") :
    run_search_core token dir provider params =
      { result := Except.ok
          { status := "error", source := "duffel_not_configured",
            options := [] },
        trace := [], calls := 0 } := by
  simp only [run_search_core, if_pos h]

/-- Witness for `run_search_core_not_configured` with an unset token. -/
theorem run_search_core_not_configured_witness :
    ((none : Option String).getD "" = "") ∧
    run_search_core none emptyDirectory (fun _ => ProviderResponse.error)
        stayZeroParams =
      { result := Except.ok
          { status := "error", source := "duffel_not_configured",
            options := [] },
        trace := [], calls := 0 } :=
  ⟨rfl, run_search_core_not_configured none emptyDirectory
    (fun _ => ProviderResponse.error) stayZeroParams rfl⟩

/-- C8: for every configured run with a non-empty pair list, the returned
result reports `done_pairs` equal to `total_pairs` (the full pair count),
and the final progress callback reports `(total_pairs, total_pairs, _)` —
regardless of whether the offer-count budget stopped the loop before some
pairs were processed. -/
theorem run_search_core_done_pairs_eq_total (token : Option String)
    (dir : AirlineDirectory) (provider : Int × Int → ProviderResponse)
    (params : SearchParams) (htok : ¬ token.getD "" = "")
    (hpairs : ¬ resolvedDatePairs params = []) :
    (∀ s, (run_search_core token dir provider params).result = Except.ok s →
      s.done_pairs = s.total_pairs ∧
      s.total_pairs = some (resolvedDatePairs params).length) ∧
    (∃ c, (run_search_core token dir provider params).trace.getLast? =
      some ((resolvedDatePairs params).length,
        (resolvedDatePairs params).length, c)) := by
  rw [run_search_core_configured_eq token dir provider params htok hpairs]
  obtain ⟨ht, _, hs⟩ := runAfterLoop_spec (resolvedMaxOffersTotal params).toNat
    dir params (resolvedDatePairs params).length
    (searchLoop provider (resolvedMaxOffersPerPair params).toNat
      (resolvedMaxOffersTotal params).toNat (resolvedDatePairs params).length
      (enumFrom 1 (resolvedDatePairs params))
      { collected := [], totalCount := 0, trace := [], calls := 0 })
  constructor
  · intro s hres
    obtain ⟨_, h2, h3⟩ := hs s hres
    exact ⟨by rw [h2, h3], h3⟩
  · exact ⟨(searchLoop provider (resolvedMaxOffersPerPair params).toNat
      (resolvedMaxOffersTotal params).toNat (resolvedDatePairs params).length
      (enumFrom 1 (resolvedDatePairs params))
      { collected := [], totalCount := 0, trace := [], calls := 0 }).totalCount,
      by rw [ht, List.getLast?_concat]⟩

/-- Witness for `run_search_core_done_pairs_eq_total` at a concrete
configured run. -/
theorem run_search_core_done_pairs_eq_total_witness :
    (¬ ((some "tok" : Option String).getD "" = "")) ∧
    (¬ resolvedDatePairs stayZeroParams = []) ∧
    ((∀ s, (run_search_core (some "tok") emptyDirectory
          (fun _ => ProviderResponse.error) stayZeroParams).result =
        Except.ok s →
      s.done_pairs = s.total_pairs ∧
      s.total_pairs = some (resolvedDatePairs stayZeroParams).length) ∧
     (∃ c, (run_search_core (some "tok") emptyDirectory
          (fun _ => ProviderResponse.error) stayZeroParams).trace.getLast? =
        some ((resolvedDatePairs stayZeroParams).length,
          (resolvedDatePairs stayZeroParams).length, c))) :=
  ⟨by decide, by decide,
   run_search_core_done_pairs_eq_total (some "tok") emptyDirectory
     (fun _ => ProviderResponse.error) stayZeroParams (by decide) (by decide)⟩

/-- C2 (amended): before each date pair the orchestrator checks only the
global offer-count budget — there is no wall-clock check anywhere in the
loop; when the count budget is reached the loop stops iterating pairs and
the partial results are still returned with status `"ok"`, and the total
number of collected offers never exceeds the resolved budget. -/
theorem run_search_core_count_budget_only (token : Option String)
    (dir : AirlineDirectory) (provider : Int × Int → ProviderResponse)
    (params : SearchParams) (htok : ¬ token.getD "" = "")
    (hpairs : ¬ resolvedDatePairs params = []) :
    (∀ s, (run_search_core token dir provider params).result = Except.ok s →
      s.status = "ok") ∧
    (∀ c, (run_search_core token dir provider params).trace.getLast? =
        some ((resolvedDatePairs params).length,
          (resolvedDatePairs params).length, c) →
      c ≤ (resolvedMaxOffersTotal params).toNat) ∧
    (∀ (idx : Nat) (pr : Int × Int) (rest : List (Nat × (Int × Int)))
        (st : LoopState),
      (resolvedMaxOffersTotal params).toNat ≤ st.totalCount →
      searchLoop provider (resolvedMaxOffersPerPair params).toNat
        (resolvedMaxOffersTotal params).toNat (resolvedDatePairs params).length
        ((idx, pr) :: rest) st = st) := by
  rw [run_search_core_configured_eq token dir provider params htok hpairs]
  obtain ⟨ht, _, hs⟩ := runAfterLoop_spec (resolvedMaxOffersTotal params).toNat
    dir params (resolvedDatePairs params).length
    (searchLoop provider (resolvedMaxOffersPerPair params).toNat
      (resolvedMaxOffersTotal params).toNat (resolvedDatePairs params).length
      (enumFrom 1 (resolvedDatePairs params))
      { collected := [], totalCount := 0, trace := [], calls := 0 })
  refine ⟨fun s hres => (hs s hres).1, ?_, ?_⟩
  · intro c hc
    rw [ht, List.getLast?_concat] at hc
    have hceq : (searchLoop provider (resolvedMaxOffersPerPair params).toNat
        (resolvedMaxOffersTotal params).toNat (resolvedDatePairs params).length
        (enumFrom 1 (resolvedDatePairs params))
        { collected := [], totalCount := 0, trace := [], calls := 0 }).totalCount
        = c :=
      congrArg (fun t : Nat × Nat × Nat => t.2.2) (Option.some.inj hc)
    rw [← hceq]
    exact searchLoop_count_le provider _ _ _ _ _ (Nat.zero_le _)
  · intro idx pr rest st h
    exact searchLoop_stops provider _ _ _ idx pr rest st h

/-- Modelled from the spec: the pair loop with the wall-clock budget the
specification describes (§4.7 step 3 and §5: "check global time budget
and global offer-count budget; if exceeded, stop iterating pairs",
"a wall-clock ceiling across the whole pair loop, checked between pairs").
No such check exists in src/main.py; this variant adds one, reading the
elapsed wall-clock time before each pair from `elapsed` and stopping once
it reaches `timeBudget`. It is compared against `searchLoop` to settle
the claim. -/
def searchLoopSpecTimed (elapsed : Nat → Nat) (timeBudget : Nat)
    (provider : Int × Int → ProviderResponse)
    (maxPerPair maxTotal totalPairs : Nat) :
    List (Nat × (Int × Int)) → LoopState → LoopState
  | [], st => st
  | (idx, pr) :: rest, st =>
    if timeBudget ≤ elapsed idx ∨ maxTotal ≤ st.totalCount then st
    else
      let st1 : LoopState :=
        { st with trace := st.trace ++ [(idx - 1, totalPairs, st.totalCount)],
                  calls := st.calls + 1 }
      match provider pr with
      | ProviderResponse.error =>
        searchLoopSpecTimed elapsed timeBudget provider maxPerPair maxTotal
          totalPairs rest st1
      | ProviderResponse.noId =>
        searchLoopSpecTimed elapsed timeBudget provider maxPerPair maxTotal
          totalPairs rest st1
      | ProviderResponse.offers os =>
        let limit := min maxPerPair (maxTotal - st1.totalCount)
        let r := collectOffers maxTotal pr.1 pr.2 (os.take limit)
          st1.collected st1.totalCount
        searchLoopSpecTimed elapsed timeBudget provider maxPerPair maxTotal
          totalPairs rest { st1 with collected := r.1, totalCount := r.2 }

/-- Modelled from the spec: `run_search_core` as the specification
describes it, driving the pair loop with the additional wall-clock budget
of `searchLoopSpecTimed`. -/
def run_search_spec_timed (elapsed : Nat → Nat) (timeBudget : Nat)
    (token : Option String) (dir : AirlineDirectory)
    (provider : Int × Int → ProviderResponse) (params : SearchParams) :
    RunOutput :=
  if token.getD "" = "" then
    { result := Except.ok
        { status := "error", source := "duffel_not_configured", options := [] },
      trace := [], calls := 0 }
  else
    let max_offers_per_pair := (resolvedMaxOffersPerPair params).toNat
    let max_offers_total := (resolvedMaxOffersTotal params).toNat
    let date_pairs := resolvedDatePairs params
    if date_pairs = [] then
      { result := Except.ok
          { status := "ok", source := "no_date_pairs", options := [],
            total_pairs := some 0, done_pairs := some 0 },
        trace := [], calls := 0 }
    else
      runAfterLoop max_offers_total dir params date_pairs.length
        (searchLoopSpecTimed elapsed timeBudget provider max_offers_per_pair
          max_offers_total date_pairs.length (enumFrom 1 date_pairs)
          { collected := [], totalCount := 0, trace := [], calls := 0 })

/-- An outbound segment shared by the two same-itinerary offers. -/
def dupSeg : RawSegment :=
  { origin_iata := some "LHR", dest_iata := some "TLV",
    departing_at := TsField.ts 1000, arriving_at := TsField.ts 1000 }

/-- A raw offer over the shared itinerary, with a given id and price. -/
def offerAt (idv : String) (price : Rat) : RawOffer :=
  { id := some idv, total_amount := PriceField.num price,
    owner_iata := some "BA", slices := [{ segments := [dupSeg] }] }

/-- A request whose window yields exactly the pair `(0, 2)`. -/
def dedupeParams : SearchParams :=
  { origin := "LHR", destination := "TLV", earliestDeparture := 0,
    latestDeparture := 2, minStayDays := 2, maxStayDays := 2 }

/-- A provider returning, for the single pair `(0, 2)`, two offers for the
same itinerary key priced 500 and 450. -/
def dedupeProvider : Int × Int → ProviderResponse :=
  fun pr =>
    if pr = (0, 2) then
      ProviderResponse.offers [offerAt "off1" 500, offerAt "off2" 450]
    else ProviderResponse.error

/-- C2 (counterexample to the claim as stated): the orchestrator does not
check any wall-clock budget. Under a clock that exceeded the time budget
before the first pair, the spec's timed loop stops immediately — no
provider call, no options — while the code processes the pair and returns
its offers: an exceeded time budget does not stop the code's loop. -/
theorem run_search_core_no_time_budget_cex :
    resultOptions (run_search_core (some "tok") emptyDirectory dedupeProvider
        dedupeParams) ≠ [] ∧
    (run_search_core (some "tok") emptyDirectory dedupeProvider
        dedupeParams).calls = 1 ∧
    resultOptions (run_search_spec_timed (fun _ => 100) 50 (some "tok")
        emptyDirectory dedupeProvider dedupeParams) = [] ∧
    (run_search_spec_timed (fun _ => 100) 50 (some "tok") emptyDirectory
        dedupeProvider dedupeParams).calls = 0 := by
  refine ⟨?_, ?_, ?_, ?_⟩ <;> decide

/-- Witness for `run_search_core_count_budget_only` at a concrete
configured run. -/
theorem run_search_core_count_budget_only_witness :
    (¬ ((some "tok" : Option String).getD "" = "")) ∧
    (¬ resolvedDatePairs dedupeParams = []) ∧
    ((∀ s, (run_search_core (some "tok") emptyDirectory dedupeProvider
          dedupeParams).result = Except.ok s → s.status = "ok") ∧
     (∀ c, (run_search_core (some "tok") emptyDirectory dedupeProvider
            dedupeParams).trace.getLast? =
          some ((resolvedDatePairs dedupeParams).length,
            (resolvedDatePairs dedupeParams).length, c) →
        c ≤ (resolvedMaxOffersTotal dedupeParams).toNat) ∧
     (∀ (idx : Nat) (pr : Int × Int) (rest : List (Nat × (Int × Int)))
         (st : LoopState),
       (resolvedMaxOffersTotal dedupeParams).toNat ≤ st.totalCount →
       searchLoop dedupeProvider
         (resolvedMaxOffersPerPair dedupeParams).toNat
         (resolvedMaxOffersTotal dedupeParams).toNat
         (resolvedDatePairs dedupeParams).length
         ((idx, pr) :: rest) st = st)) :=
  ⟨by decide, by decide,
   run_search_core_count_budget_only (some "tok") emptyDirectory
     dedupeProvider dedupeParams (by decide) (by decide)⟩

/-- C1 (counterexample to the claim as stated): the pipeline never
deduplicates. Two collected offers sharing the itinerary key — same
owning carrier, identical slices (hence identical outbound timestamps and
stop count), same cabin and date pair — and priced 500 and 450 BOTH
survive to the final option list; in particular the 500-priced option is
present, which the claim says must have been replaced by the 450 one. -/
theorem run_search_core_no_dedup_cex :
    (offerAt "off1" 500).owner_iata = (offerAt "off2" 450).owner_iata ∧
    (offerAt "off1" 500).slices = (offerAt "off2" 450).slices ∧
    (resultOptions (run_search_core (some "tok") emptyDirectory
        dedupeProvider dedupeParams)).length = 2 ∧
    (∃ o ∈ resultOptions (run_search_core (some "tok") emptyDirectory
        dedupeProvider dedupeParams), o.price = 500) := by
  refine ⟨rfl, rfl, ?_, ?_⟩ <;> decide

/-- C1 (amended): `run_search_core` performs no deduplication between
collecting and filtering: two raw offers for the same itinerary key
priced 500 and 450 both yield options, and the final list contains both,
sorted by price — the cheaper one first, the 500 one still present. -/
theorem run_search_core_no_dedup_keeps_both :
    (resultOptions (run_search_core (some "tok") emptyDirectory
        dedupeProvider dedupeParams)).map (fun o => (o.id, o.price)) =
      [("off2", 450), ("off1", 500)] := by
  decide

/-! ### Result slicing of the polling endpoint -/

/-- Python list slicing `l[a:b]` for `0 ≤ a ≤ b`, the only case
`search_status` produces (`a = max(0, offset)` and `b = a + max_limit`
with `max_limit ≥ 1`). -/
def pySlice {α : Type} (l : List α) (a b : Int) : List α :=
  (l.drop a.toNat).take (b - a).toNat

/-- The result-slicing block of `search_status`
(src/main.py lines 573-581): on a completed job with a non-empty option
list, return `options[start:end]` with `start = max(0, offset)` and
`end = start + max(1, min(limit, 200))`; with no options the slice stays
empty. -/
def search_status_slice (options : List FlightOption) (offset limit : Int) :
    List FlightOption :=
  if options = [] then []
  else
    let start := max 0 offset
    let max_limit := max 1 (min limit 200)
    pySlice options start (start + max_limit)

/-- C9: polling a completed job with non-empty options returns the slice
`options[max(0, offset) : max(0, offset) + clamp(limit, 1, 200)]`: the
page size is clamped into `[1, 200]`, so `limit ≤ 0` yields a one-option
page (never an empty one, for an in-range start), and a negative offset
reads from the start of the list. -/
theorem search_status_slice_spec (options : List FlightOption)
    (offset limit : Int) (h : options ≠ []) :
    search_status_slice options offset limit =
      (options.drop (max 0 offset).toNat).take (max 1 (min limit 200)).toNat ∧
    (limit ≤ 0 → search_status_slice options offset limit =
      (options.drop (max 0 offset).toNat).take 1) ∧
    (offset ≤ 0 → search_status_slice options offset limit =
      options.take (max 1 (min limit 200)).toNat) ∧
    (limit ≤ 0 → offset ≤ 0 →
      (search_status_slice options offset limit).length = 1) := by
  have hmain : search_status_slice options offset limit =
      (options.drop (max 0 offset).toNat).take (max 1 (min limit 200)).toNat := by
    simp only [search_status_slice, if_neg h, pySlice]
    have harg : max 0 offset + max 1 (min limit 200) - max 0 offset =
        max 1 (min limit 200) := by ring
    rw [harg]
  have hone : limit ≤ 0 → (max 1 (min limit 200)).toNat = 1 := by
    intro hl
    omega
  refine ⟨hmain, ?_, ?_, ?_⟩
  · intro hl
    rw [hmain, hone hl]
  · intro ho
    have hoff : (max 0 offset).toNat = 0 := by omega
    rw [hmain, hoff, List.drop_zero]
  · intro hl ho
    have hoff : (max 0 offset).toNat = 0 := by omega
    rw [hmain, hoff, List.drop_zero, hone hl, List.length_take]
    have : 0 < options.length := List.length_pos.mpr h
    omega

/-- Witness for `search_status_slice_spec`: two options, a negative
offset and a zero limit yield exactly the first option. -/
theorem search_status_slice_spec_witness :
    ([stopsDemoOption 0, stopsDemoOption 1] ≠ ([] : List FlightOption)) ∧
    ((0 : Int) ≤ 0 → (-3 : Int) ≤ 0 →
      (search_status_slice [stopsDemoOption 0, stopsDemoOption 1]
        (-3) 0).length = 1) :=
  ⟨by decide,
   (search_status_slice_spec [stopsDemoOption 0, stopsDemoOption 1] (-3) 0
     (by decide)).2.2.2⟩
